import Mathlib

/-!
Shallow embedding of the PR-reviewer service (Go sources under
internal/models, internal/repository, internal/service and the user
repository) for checking the natural-language specification.

Modelling conventions:
* The database is a `State`: lists of team rows, user rows, PR rows and
  the pr_reviewers relation (pairs, primary key (pr_id, reviewer_id)).
* Timestamps are natural numbers; `time.Now()` and DB-assigned ids are
  explicit parameters of the operations that use them.
* SQL randomness (ORDER BY RANDOM()) and math/rand (Shuffle, Intn) are
  modelled by permutation / index parameters; theorems quantify over them.
* Fallible operations return `Except String`, carrying the exact error
  strings of the Go code; on error the transaction rolls back, so no new
  state is produced.
* Transient enrichment fields (Author, Team, Teams) are never persisted
  and are not needed by any claim, so the embedded records omit them.
-/

namespace PRRev

/-- PR status, from internal/models/models.go (OPEN / MERGED / CLOSED). -/
inductive PRStatus where
  | Open
  | Merged
  | Closed
deriving DecidableEq, Repr

/-- User row, from internal/models/models.go (enrichment field Teams omitted,
it is transient). -/
structure User where
  id : Nat
  username : String
  name : String
  isActive : Bool
  teamId : Option Nat
  createdAt : Nat
  updatedAt : Nat
deriving DecidableEq, Repr

/-- Team row, from internal/models/models.go. -/
structure Team where
  id : Nat
  name : String
  createdAt : Nat
  updatedAt : Nat
deriving DecidableEq, Repr

/-- A pull_requests table row (the PullRequest model without the joined
reviewer list and transient enrichment). -/
structure PRRow where
  id : Nat
  title : String
  authorId : Nat
  status : PRStatus
  createdAt : Nat
  mergedAt : Option Nat
  updatedAt : Nat
deriving DecidableEq, Repr

/-- PullRequest as returned by the repository: row plus joined reviewers,
from internal/models/models.go. -/
structure PullRequest where
  id : Nat
  title : String
  authorId : Nat
  status : PRStatus
  createdAt : Nat
  mergedAt : Option Nat
  updatedAt : Nat
  reviewers : List User
deriving DecidableEq, Repr

/-- Database state: the four tables of migrations/001_initial_schema.up.sql.
prReviewers holds (pr_id, reviewer_id) pairs. -/
structure State where
  teams : List Team
  users : List User
  prs : List PRRow
  prReviewers : List (Nat × Nat)
deriving DecidableEq, Repr

/-- UpdateUserRequest from internal/models/models.go. -/
structure UpdateUserRequest where
  name : Option String
  isActive : Option Bool
deriving DecidableEq, Repr

/-- CreateUserRequest from internal/models/models.go. -/
structure CreateUserRequest where
  username : String
  name : String
  teamId : Option Nat
deriving DecidableEq, Repr

/-- CreatePullRequestRequest from internal/models/models.go. -/
structure CreatePullRequestRequest where
  title : String
  authorId : Nat
deriving DecidableEq, Repr

/-- SELECT by primary key on users (UserRepository.GetByID query). -/
def findUser (st : State) (id : Nat) : Option User :=
  st.users.find? (fun u => decide (u.id = id))

/-- SELECT by primary key on teams (TeamRepository.GetByID query). -/
def findTeam (st : State) (id : Nat) : Option Team :=
  st.teams.find? (fun t => decide (t.id = id))

/-- SELECT by primary key on pull_requests (PRRepository.GetByID query). -/
def findPR (st : State) (id : Nat) : Option PRRow :=
  st.prs.find? (fun p => decide (p.id = id))

/-- PRRepository.getReviewers: users joined with pr_reviewers on the PR id. -/
def getReviewers (st : State) (prId : Nat) : List User :=
  st.users.filter (fun u => st.prReviewers.contains (prId, u.id))

/-- Attach the joined reviewer list to a PR row, as every PR-returning
repository query does. -/
def assemble (st : State) (p : PRRow) : PullRequest :=
  { id := p.id, title := p.title, authorId := p.authorId, status := p.status,
    createdAt := p.createdAt, mergedAt := p.mergedAt, updatedAt := p.updatedAt,
    reviewers := getReviewers st p.id }

/-- PRRepository.GetByID: row lookup plus reviewers; sql.ErrNoRows becomes
the error string of the Go code. -/
def prGetByID (st : State) (id : Nat) : Except String PullRequest :=
  match findPR st id with
  | none => .error "PR not found"
  | some p => .ok (assemble st p)

/-- WHERE clause of PRRepository.Merge: id matches and status is OPEN or
MERGED. -/
def mergeCond (id : Nat) (q : PRRow) : Bool :=
  decide (q.id = id ∧ (q.status = .Open ∨ q.status = .Merged))

/-- SET clause of PRRepository.Merge: status MERGED, merged_at now. -/
def mergeRow (now : Nat) (q : PRRow) : PRRow :=
  { q with status := .Merged, mergedAt := some now }

/-- PRRepository.Merge: conditional UPDATE with RETURNING; when no row
matches the WHERE clause the Go code reports sql.ErrNoRows as
"PR not found". -/
def prMerge (st : State) (id now : Nat) : Except String (PullRequest × State) :=
  match st.prs.find? (mergeCond id) with
  | none => .error "PR not found"
  | some p =>
    let st' : State :=
      { st with prs := st.prs.map (fun q => if mergeCond id q then mergeRow now q else q) }
    .ok (assemble st' (mergeRow now p), st')

/-- WHERE clause of PRRepository.Close: id matches and status is OPEN. -/
def closeCond (id : Nat) (q : PRRow) : Bool :=
  decide (q.id = id ∧ q.status = .Open)

/-- SET clause of PRRepository.Close: status CLOSED (merged_at untouched). -/
def closeRow (q : PRRow) : PRRow :=
  { q with status := .Closed }

/-- PRRepository.Close: conditional UPDATE with RETURNING; zero matching
rows is reported as "PR not found or already closed/merged". -/
def prClose (st : State) (id : Nat) : Except String (PullRequest × State) :=
  match st.prs.find? (closeCond id) with
  | none => .error "PR not found or already closed/merged"
  | some p =>
    let st' : State :=
      { st with prs := st.prs.map (fun q => if closeCond id q then closeRow q else q) }
    .ok (assemble st' (closeRow p), st')

/-- PRRepository.ReplaceReviewer: one transaction that checks the PR status,
deletes the old (pr_id, reviewer_id) row (error when zero rows affected),
then inserts the new pair (the primary key on pr_reviewers rejects a
duplicate pair, rolling the transaction back). On error the transaction
rolls back, so no state is returned. -/
def replaceReviewer (st : State) (prId oldId newId : Nat) : Except String State :=
  match findPR st prId with
  | none => .error "PR not found"
  | some p =>
    if p.status = .Merged then
      .error "cannot change reviewers of merged PR"
    else if !(st.prReviewers.contains (prId, oldId)) then
      .error "reviewer not found in PR"
    else
      let afterDelete := st.prReviewers.filter (fun r => decide (r ≠ (prId, oldId)))
      if afterDelete.contains (prId, newId) then
        .error "failed to add new reviewer"
      else
        .ok { st with prReviewers := afterDelete ++ [(prId, newId)] }

/-- Committed database state after a ReplaceReviewer call: the new state on
commit, the unchanged input state on rollback. -/
def replaceReviewerRun (st : State) (prId oldId newId : Nat) : State :=
  match replaceReviewer st prId oldId newId with
  | .ok st' => st'
  | .error _ => st

/-- UserRepository.GetActiveUsersFromTeam WHERE clause: team matches, user
active, id differs from the excluded user. The ORDER BY RANDOM() of the
query is modelled by quantifying theorems over permutations of this list. -/
def getActiveUsersFromTeam (st : State) (teamId excludeUserId : Nat) : List User :=
  st.users.filter (fun u => decide (u.teamId = some teamId ∧ u.isActive = true ∧ u.id ≠ excludeUserId))

/-- Service.selectReviewers, pure part (service.go lines 459-479): keep all
candidates when there are at most maxCount of them, otherwise take the first
maxCount of the shuffled candidate list. rand.Shuffle is modelled by the
`shuffled` parameter, a permutation of `candidates` in the theorems. -/
def selectReviewers (candidates shuffled : List User) (maxCount : Nat) : List User :=
  if candidates.length ≤ maxCount then candidates
  else shuffled.take maxCount

/-- Service.selectRandomReviewer, pure part (service.go lines 490-509):
filter out excluded ids, error when the pool is empty, otherwise pick one
element; rand.Intn is modelled by the index parameter (taken mod the pool
size). -/
def selectRandomReviewer (candidates : List User) (excludeIDs : List Nat) (idx : Nat) :
    Except String User :=
  let filtered := candidates.filter (fun c => !(excludeIDs.contains c.id))
  if h : filtered.length = 0 then .error "no available reviewers in team"
  else .ok (filtered.get ⟨idx % filtered.length, Nat.mod_lt _ (Nat.pos_of_ne_zero h)⟩)

/-- Helper getReviewerIDs of service.go. -/
def getReviewerIDs (reviewers : List User) : List Nat :=
  reviewers.map (fun r => r.id)

/-- PRRepository.addReviewersTx / AddReviewers: insert one pr_reviewers row
per reviewer inside a transaction; the primary key on (pr_id, reviewer_id)
rejects a duplicate pair and the transaction rolls back. -/
def addReviewers (st : State) (prId : Nat) (reviewers : List User) : Except String State :=
  match reviewers with
  | [] => .ok st
  | r :: rest =>
    if st.prReviewers.contains (prId, r.id) then
      .error "failed to add reviewer"
    else
      addReviewers { st with prReviewers := st.prReviewers ++ [(prId, r.id)] } prId rest

/-- Service.CreateUser (service.go lines 78-107): the user is built with
IsActive true; when a team id is given the team must exist; the row is then
inserted with a DB-assigned id and timestamps (parameters here). Transient
team enrichment is omitted. -/
def createUser (st : State) (req : CreateUserRequest) (newId now : Nat) :
    Except String (User × State) :=
  let user : User :=
    { id := newId, username := req.username, name := req.name, isActive := true,
      teamId := req.teamId, createdAt := now, updatedAt := now }
  match req.teamId with
  | some tid =>
    match findTeam st tid with
    | none => .error "team not found"
    | some _ => .ok (user, { st with users := st.users ++ [user] })
  | none => .ok (user, { st with users := st.users ++ [user] })

/-- SET clause built by UserRepository.Update: only the fields present in
the request are written. -/
def updateUserRow (req : UpdateUserRequest) (u : User) : User :=
  { u with name := req.name.getD u.name, isActive := req.isActive.getD u.isActive }

/-- UserRepository.Update (lines 147-191 of the user repository file):
look the user up (sql.ErrNoRows reported as "user not found"); when both
request fields are absent return the stored row without issuing an UPDATE;
otherwise UPDATE only the present fields and return the updated row. -/
def userUpdate (st : State) (id : Nat) (req : UpdateUserRequest) :
    Except String (User × State) :=
  match findUser st id with
  | none => .error "user not found"
  | some user =>
    match req.name, req.isActive with
    | none, none => .ok (user, st)
    | _, _ =>
      .ok (updateUserRow req user,
           { st with users := st.users.map (fun u => if u.id = id then updateUserRow req u else u) })

/-- Service.CreatePullRequest (service.go lines 191-241). The author must
exist; when the author has a team the reviewer-selection call runs and its
outcome is the `selOutcome` parameter (the Except value produced by
Service.selectReviewers, whose pure part is `selectReviewers` above): on
error the PR is still created, just without reviewers. The PR row (status
OPEN) and the reviewer rows are inserted in one transaction; the new id and
the timestamps are DB-assigned parameters. -/
def createPullRequest (st : State) (req : CreatePullRequestRequest)
    (selOutcome : Except String (List User)) (newId now : Nat) :
    Except String (PullRequest × State) :=
  match findUser st req.authorId with
  | none => .error "author not found"
  | some author =>
    let reviewers : List User :=
      match author.teamId with
      | none => []
      | some _ =>
        match selOutcome with
        | .error _ => []
        | .ok rs => rs
    let row : PRRow :=
      { id := newId, title := req.title, authorId := req.authorId, status := .Open,
        createdAt := now, mergedAt := none, updatedAt := now }
    .ok ({ id := newId, title := req.title, authorId := req.authorId, status := .Open,
           createdAt := now, mergedAt := none, updatedAt := now, reviewers := reviewers },
         { st with prs := st.prs ++ [row],
                   prReviewers := st.prReviewers ++ reviewers.map (fun r => (newId, r.id)) })

/-- Service.AddReviewer (service.go lines 313-355): load the PR with its
reviewers; reject MERGED or CLOSED status, an already-assigned reviewer, a
reviewer equal to the author, an unknown or inactive user, in that order;
then insert the relation row and return the reloaded PR. -/
def addReviewer (st : State) (prId reviewerId : Nat) : Except String (PullRequest × State) :=
  match prGetByID st prId with
  | .error e => .error e
  | .ok pr =>
    if pr.status = .Merged ∨ pr.status = .Closed then
      .error "cannot add reviewers to merged or closed PR"
    else if pr.reviewers.any (fun r => decide (r.id = reviewerId)) then
      .error "reviewer already assigned to this PR"
    else if pr.authorId = reviewerId then
      .error "author cannot be a reviewer"
    else
      match findUser st reviewerId with
      | none => .error "reviewer not found"
      | some user =>
        if user.isActive = false then
          .error "reviewer is not active"
        else
          match addReviewers st prId [user] with
          | .error e => .error e
          | .ok st' =>
            match prGetByID st' prId with
            | .error e => .error e
            | .ok pr' => .ok (pr', st')

/-- Service.ReassignReviewer (service.go lines 357-401): load the PR with
reviewers; reject a MERGED PR; find the old reviewer among the current
reviewers; reject an old reviewer without a team; pick a replacement via
selectRandomReviewer over the active teammates (the repository call result
is the `cand` parameter, a permutation of getActiveUsersFromTeam in the
theorems; `idx` models rand.Intn), wrapping its error; then run the
transactional ReplaceReviewer and return the reloaded PR. -/
def reassignReviewer (st : State) (prId oldReviewerId : Nat)
    (cand : List User) (idx : Nat) : Except String (PullRequest × State) :=
  match prGetByID st prId with
  | .error e => .error e
  | .ok pr =>
    if pr.status = .Merged then
      .error "cannot change reviewers of merged PR"
    else
      match pr.reviewers.find? (fun u => decide (u.id = oldReviewerId)) with
      | none => .error "reviewer not found in PR"
      | some oldReviewer =>
        match oldReviewer.teamId with
        | none => .error "reviewer is not in a team"
        | some _ =>
          match selectRandomReviewer cand (getReviewerIDs pr.reviewers) idx with
          | .error e => .error ("failed to select new reviewer: " ++ e)
          | .ok newReviewer =>
            match replaceReviewer st prId oldReviewerId newReviewer.id with
            | .error e => .error e
            | .ok st' =>
              match prGetByID st' prId with
              | .error e => .error e
              | .ok pr' => .ok (pr', st')

/-! Helper lemmas shared by the claim theorems. -/

/-- A conditional map that preserves the condition also preserves the first
match of find?, mapping it. -/
theorem find?_map_update {α : Type} {cond : α → Bool} {upd : α → α}
    (hpres : ∀ q, cond q = true → cond (upd q) = true)
    (l : List α) (p : α) (h : l.find? cond = some p) :
    (l.map (fun q => if cond q then upd q else q)).find? cond = some (upd p) := by
  induction l with
  | nil => simp at h
  | cons q l ih =>
    by_cases hq : cond q = true
    · rw [List.find?_cons_of_pos _ hq] at h
      have hqp : q = p := by injection h
      subst hqp
      simp only [List.map_cons, if_pos hq]
      exact List.find?_cons_of_pos _ (hpres q hq)
    · rw [List.find?_cons_of_neg _ (by simp [hq])] at h
      simp only [List.map_cons, if_neg hq]
      rw [List.find?_cons_of_neg _ (by simp [hq])]
      exact ih h

/-- A conditional map whose update falsifies the condition leaves no match
for find?. -/
theorem find?_map_update_none {α : Type} {cond : α → Bool} {upd : α → α}
    (hkill : ∀ q, cond (upd q) = false) (l : List α) :
    (l.map (fun q => if cond q then upd q else q)).find? cond = none := by
  rw [List.find?_eq_none]
  intro x hx
  rcases List.mem_map.mp hx with ⟨q, _, rfl⟩
  by_cases h : cond q = true
  · simp [h, hkill q]
  · simp [h]

/-- Length contract of selectReviewers, given the shuffled list is a
permutation of the candidates. -/
theorem selectReviewers_length (c s : List User) (m : Nat) (hs : s.Perm c) :
    (selectReviewers c s m).length = min c.length m := by
  unfold selectReviewers
  split
  · next h => exact (Nat.min_eq_left h).symm
  · next h => rw [List.length_take, hs.length_eq]; omega

/-- Every selected reviewer comes from the candidate list. -/
theorem selectReviewers_mem (c s : List User) (m : Nat) (hs : s.Perm c)
    (u : User) (hu : u ∈ selectReviewers c s m) : u ∈ c := by
  unfold selectReviewers at hu
  split at hu
  · exact hu
  · exact hs.mem_iff.mp (List.take_subset _ _ hu)

/-! Claim theorems. -/

/-- C10: every user created via CreateUser starts active: whenever
Service.CreateUser succeeds, the returned user has isActive = true. -/
theorem createUser_starts_active (st : State) (req : CreateUserRequest)
    (newId now : Nat) (u : User) (st' : State)
    (h : createUser st req newId now = .ok (u, st')) : u.isActive = true := by
  unfold createUser at h
  split at h
  · split at h
    · simp at h
    · simp only [Except.ok.injEq, Prod.mk.injEq] at h
      rw [← h.1]
  · simp only [Except.ok.injEq, Prod.mk.injEq] at h
    rw [← h.1]

/-- Witness for C10 at a concrete request without a team. -/
theorem createUser_starts_active_witness :
    createUser ⟨[], [], [], []⟩ ⟨"alice", "Alice", none⟩ 1 0 =
      .ok (⟨1, "alice", "Alice", true, none, 0, 0⟩,
           ⟨[], [⟨1, "alice", "Alice", true, none, 0, 0⟩], [], []⟩) ∧
    (⟨1, "alice", "Alice", true, none, 0, 0⟩ : User).isActive = true :=
  ⟨rfl, createUser_starts_active ⟨[], [], [], []⟩ ⟨"alice", "Alice", none⟩ 1 0 _ _ rfl⟩

/-- C9: UserRepository.Update is a partial update: updating only the name
leaves isActive (and every other field) unchanged and vice versa; with both
fields absent the stored user is returned and the state is untouched (no
write); an unknown id fails with the not-found error. -/
theorem updateUser_partial
    (stA : State) (idA : Nat) (userA : User) (n : String) (b : Bool)
    (stB : State) (idB : Nat) (reqB : UpdateUserRequest)
    (hfound : findUser stA idA = some userA)
    (hmissing : findUser stB idB = none) :
    (∃ st', userUpdate stA idA ⟨some n, none⟩ = .ok ({ userA with name := n }, st')) ∧
    (∃ st', userUpdate stA idA ⟨none, some b⟩ = .ok ({ userA with isActive := b }, st')) ∧
    userUpdate stA idA ⟨none, none⟩ = .ok (userA, stA) ∧
    userUpdate stB idB reqB = .error "user not found" := by
  have h1 : ∃ st', userUpdate stA idA ⟨some n, none⟩ = .ok ({ userA with name := n }, st') := by
    refine ⟨{ stA with users := stA.users.map (fun u => if u.id = idA then updateUserRow ⟨some n, none⟩ u else u) }, ?_⟩
    simp [userUpdate, hfound, updateUserRow]
  have h2 : ∃ st', userUpdate stA idA ⟨none, some b⟩ = .ok ({ userA with isActive := b }, st') := by
    refine ⟨{ stA with users := stA.users.map (fun u => if u.id = idA then updateUserRow ⟨none, some b⟩ u else u) }, ?_⟩
    simp [userUpdate, hfound, updateUserRow]
  have h3 : userUpdate stA idA ⟨none, none⟩ = .ok (userA, stA) := by
    simp [userUpdate, hfound]
  have h4 : userUpdate stB idB reqB = .error "user not found" := by
    simp [userUpdate, hmissing]
  exact ⟨h1, h2, h3, h4⟩

/-- Witness for C9: a one-user state for the update cases and the empty
state for the not-found case. -/
theorem updateUser_partial_witness :
    (∃ st', userUpdate ⟨[], [⟨7, "bob", "Bob", true, none, 0, 0⟩], [], []⟩ 7
        ⟨some "Bobby", none⟩ = .ok (⟨7, "bob", "Bobby", true, none, 0, 0⟩, st')) ∧
    (∃ st', userUpdate ⟨[], [⟨7, "bob", "Bob", true, none, 0, 0⟩], [], []⟩ 7
        ⟨none, some false⟩ = .ok (⟨7, "bob", "Bob", false, none, 0, 0⟩, st')) ∧
    userUpdate ⟨[], [⟨7, "bob", "Bob", true, none, 0, 0⟩], [], []⟩ 7 ⟨none, none⟩ =
      .ok (⟨7, "bob", "Bob", true, none, 0, 0⟩, ⟨[], [⟨7, "bob", "Bob", true, none, 0, 0⟩], [], []⟩) ∧
    userUpdate ⟨[], [], [], []⟩ 7 ⟨some "x", none⟩ = .error "user not found" :=
  updateUser_partial ⟨[], [⟨7, "bob", "Bob", true, none, 0, 0⟩], [], []⟩ 7
    ⟨7, "bob", "Bob", true, none, 0, 0⟩ "Bobby" false ⟨[], [], [], []⟩ 7 ⟨some "x", none⟩
    (by decide) (by decide)

/-- C6: reviewer-selection failure during PR creation is non-fatal: with an
existing author, when the selection call errors the PR is still created with
status OPEN, an empty reviewer list and no new relation rows, and no error
is returned. -/
theorem createPR_selection_failure_nonfatal
    (st : State) (req : CreatePullRequestRequest) (author : User) (e : String)
    (newId now : Nat) (hauthor : findUser st req.authorId = some author) :
    ∃ pr st', createPullRequest st req (.error e) newId now = .ok (pr, st') ∧
      pr.status = .Open ∧ pr.reviewers = [] ∧ st'.prReviewers = st.prReviewers := by
  refine ⟨⟨newId, req.title, req.authorId, .Open, now, none, now, []⟩,
    { st with prs := st.prs ++ [⟨newId, req.title, req.authorId, .Open, now, none, now⟩],
              prReviewers := st.prReviewers ++ ([] : List User).map (fun r => (newId, r.id)) },
    ?_, rfl, rfl, by simp⟩
  unfold createPullRequest
  rw [hauthor]
  rcases hteam : author.teamId with _ | tid <;> simp only [hteam]

/-- Witness for C6: an author on a team, with the selection call failing. -/
theorem createPR_selection_failure_nonfatal_witness :
    ∃ pr st', createPullRequest
        ⟨[⟨1, "qa", 0, 0⟩], [⟨1, "alice", "Alice", true, some 1, 0, 0⟩], [], []⟩
        ⟨"Fix bug", 1⟩ (.error "boom") 1 5 = .ok (pr, st') ∧
      pr.status = .Open ∧ pr.reviewers = [] ∧
      st'.prReviewers = (⟨[⟨1, "qa", 0, 0⟩], [⟨1, "alice", "Alice", true, some 1, 0, 0⟩], [], []⟩ : State).prReviewers :=
  createPR_selection_failure_nonfatal
    ⟨[⟨1, "qa", 0, 0⟩], [⟨1, "alice", "Alice", true, some 1, 0, 0⟩], [], []⟩
    ⟨"Fix bug", 1⟩ ⟨1, "alice", "Alice", true, some 1, 0, 0⟩ "boom" 1 5 (by decide)

/-- C5: selectReviewers returns all candidates when there are at most max
of them, and otherwise a duplicate-free sub-collection of the candidates of
exactly size max, for any shuffle (permutation) of the candidate list. -/
theorem selectReviewers_contract (candidates shuffled : List User) (maxCount : Nat)
    (hperm : shuffled.Perm candidates) (hnd : candidates.Nodup) :
    (candidates.length ≤ maxCount →
      selectReviewers candidates shuffled maxCount = candidates) ∧
    (maxCount < candidates.length →
      (selectReviewers candidates shuffled maxCount).length = maxCount ∧
      (∀ u ∈ selectReviewers candidates shuffled maxCount, u ∈ candidates) ∧
      (selectReviewers candidates shuffled maxCount).Nodup) := by
  constructor
  · intro h
    unfold selectReviewers
    rw [if_pos h]
  · intro h
    refine ⟨?_, fun u hu => selectReviewers_mem _ _ _ hperm u hu, ?_⟩
    · rw [selectReviewers_length _ _ _ hperm]
      omega
    · have hsnd : shuffled.Nodup := hperm.nodup_iff.mpr hnd
      unfold selectReviewers
      split
      · exact hnd
      · exact hsnd.sublist (List.take_sublist _ _)

/-- Witness for C5: three candidates, cap two, a genuine shuffle. -/
theorem selectReviewers_contract_witness :
    (selectReviewers
        [⟨2, "b", "B", true, some 1, 0, 0⟩, ⟨3, "c", "C", true, some 1, 0, 0⟩,
         ⟨4, "d", "D", true, some 1, 0, 0⟩]
        [⟨4, "d", "D", true, some 1, 0, 0⟩, ⟨2, "b", "B", true, some 1, 0, 0⟩,
         ⟨3, "c", "C", true, some 1, 0, 0⟩] 2).length = 2 ∧
    (∀ u ∈ selectReviewers
        [⟨2, "b", "B", true, some 1, 0, 0⟩, ⟨3, "c", "C", true, some 1, 0, 0⟩,
         ⟨4, "d", "D", true, some 1, 0, 0⟩]
        [⟨4, "d", "D", true, some 1, 0, 0⟩, ⟨2, "b", "B", true, some 1, 0, 0⟩,
         ⟨3, "c", "C", true, some 1, 0, 0⟩] 2,
      u ∈ [⟨2, "b", "B", true, some 1, 0, 0⟩, ⟨3, "c", "C", true, some 1, 0, 0⟩,
           ⟨4, "d", "D", true, some 1, 0, 0⟩]) ∧
    (selectReviewers
        [⟨2, "b", "B", true, some 1, 0, 0⟩, ⟨3, "c", "C", true, some 1, 0, 0⟩,
         ⟨4, "d", "D", true, some 1, 0, 0⟩]
        [⟨4, "d", "D", true, some 1, 0, 0⟩, ⟨2, "b", "B", true, some 1, 0, 0⟩,
         ⟨3, "c", "C", true, some 1, 0, 0⟩] 2).Nodup :=
  (selectReviewers_contract
    [⟨2, "b", "B", true, some 1, 0, 0⟩, ⟨3, "c", "C", true, some 1, 0, 0⟩,
     ⟨4, "d", "D", true, some 1, 0, 0⟩]
    [⟨4, "d", "D", true, some 1, 0, 0⟩, ⟨2, "b", "B", true, some 1, 0, 0⟩,
     ⟨3, "c", "C", true, some 1, 0, 0⟩] 2 (by decide) (by decide)).2 (by decide)

/-- C2: when the author belongs to a team with at least one active
non-author teammate, the created PR carries exactly min(N, 2) reviewers and
the author is never among them, for any ordering the database returns the
candidates in and any shuffle the selection applies. -/
theorem createPR_reviewer_count
    (st : State) (req : CreatePullRequestRequest) (author : User) (teamId : Nat)
    (candidates shuffled : List User) (newId now : Nat)
    (hauthor : findUser st req.authorId = some author)
    (hteam : author.teamId = some teamId)
    (hcand : candidates.Perm (getActiveUsersFromTeam st teamId req.authorId))
    (hshuf : shuffled.Perm candidates)
    (_hone : 1 ≤ (getActiveUsersFromTeam st teamId req.authorId).length) :
    ∃ pr st',
      createPullRequest st req (.ok (selectReviewers candidates shuffled 2)) newId now
        = .ok (pr, st') ∧
      pr.reviewers.length = min (getActiveUsersFromTeam st teamId req.authorId).length 2 ∧
      ∀ u ∈ pr.reviewers, u.id ≠ req.authorId := by
  refine ⟨⟨newId, req.title, req.authorId, .Open, now, none, now,
      selectReviewers candidates shuffled 2⟩,
    { st with prs := st.prs ++ [⟨newId, req.title, req.authorId, .Open, now, none, now⟩],
              prReviewers := st.prReviewers ++ (selectReviewers candidates shuffled 2).map (fun r => (newId, r.id)) },
    ?_, ?_, ?_⟩
  · simp only [createPullRequest, hauthor, hteam]
  · show (selectReviewers candidates shuffled 2).length = _
    rw [selectReviewers_length _ _ _ hshuf, hcand.length_eq]
  · show ∀ u ∈ selectReviewers candidates shuffled 2, u.id ≠ req.authorId
    intro u hu
    have hc : u ∈ candidates := selectReviewers_mem _ _ _ hshuf u hu
    have hf : u ∈ getActiveUsersFromTeam st teamId req.authorId := hcand.mem_iff.mp hc
    have := (List.mem_filter.mp hf).2
    simp only [decide_eq_true_eq] at this
    exact this.2.2

/-- Witness for C2: a team of the author plus two active teammates; both
permutations are the identity. -/
theorem createPR_reviewer_count_witness :
    ∃ pr st',
      createPullRequest
        ⟨[⟨1, "qa", 0, 0⟩],
         [⟨1, "a", "A", true, some 1, 0, 0⟩, ⟨2, "b", "B", true, some 1, 0, 0⟩,
          ⟨3, "c", "C", true, some 1, 0, 0⟩], [], []⟩
        ⟨"Fix bug", 1⟩
        (.ok (selectReviewers
          [⟨2, "b", "B", true, some 1, 0, 0⟩, ⟨3, "c", "C", true, some 1, 0, 0⟩]
          [⟨2, "b", "B", true, some 1, 0, 0⟩, ⟨3, "c", "C", true, some 1, 0, 0⟩] 2)) 1 5
        = .ok (pr, st') ∧
      pr.reviewers.length =
        min (getActiveUsersFromTeam
          ⟨[⟨1, "qa", 0, 0⟩],
           [⟨1, "a", "A", true, some 1, 0, 0⟩, ⟨2, "b", "B", true, some 1, 0, 0⟩,
            ⟨3, "c", "C", true, some 1, 0, 0⟩], [], []⟩ 1 1).length 2 ∧
      ∀ u ∈ pr.reviewers, u.id ≠ 1 :=
  createPR_reviewer_count
    ⟨[⟨1, "qa", 0, 0⟩],
     [⟨1, "a", "A", true, some 1, 0, 0⟩, ⟨2, "b", "B", true, some 1, 0, 0⟩,
      ⟨3, "c", "C", true, some 1, 0, 0⟩], [], []⟩
    ⟨"Fix bug", 1⟩ ⟨1, "a", "A", true, some 1, 0, 0⟩ 1
    [⟨2, "b", "B", true, some 1, 0, 0⟩, ⟨3, "c", "C", true, some 1, 0, 0⟩]
    [⟨2, "b", "B", true, some 1, 0, 0⟩, ⟨3, "c", "C", true, some 1, 0, 0⟩] 1 5
    (by decide) rfl (by decide) (by decide) (by decide)

/-- Shape of the committed relation after a successful ReplaceReviewer: the
old pair deleted, the new pair inserted. -/
theorem replaceReviewer_ok_shape (st : State) (prId oldId newId : Nat) (st' : State)
    (h : replaceReviewer st prId oldId newId = .ok st') :
    st'.prReviewers =
      st.prReviewers.filter (fun r => decide (r ≠ (prId, oldId))) ++ [(prId, newId)] := by
  unfold replaceReviewer at h
  split at h
  · exact absurd h (by simp)
  · split at h
    · exact absurd h (by simp)
    · split at h
      · exact absurd h (by simp)
      · simp only [] at h
        split at h
        · exact absurd h (by simp)
        · injection h with h
          subst h
          rfl

/-- C4: ReplaceReviewer is atomic over the pr_reviewers relation: every call
either rolls back (an error, with the committed state unchanged) or commits
a state in which the old pair is gone, the new pair is present, and every
other pair is untouched; no half-applied state is ever committed. -/
theorem replaceReviewer_atomic (st : State) (prId oldId newId : Nat) :
    (∃ e, replaceReviewer st prId oldId newId = .error e ∧
      replaceReviewerRun st prId oldId newId = st) ∨
    (∃ st', replaceReviewer st prId oldId newId = .ok st' ∧
      replaceReviewerRun st prId oldId newId = st' ∧
      (prId, newId) ∈ st'.prReviewers ∧
      ((prId, oldId) ∈ st'.prReviewers → oldId = newId) ∧
      (∀ pair, pair ≠ (prId, oldId) → pair ≠ (prId, newId) →
        (pair ∈ st'.prReviewers ↔ pair ∈ st.prReviewers))) := by
  rcases hrep : replaceReviewer st prId oldId newId with e | st'
  · exact Or.inl ⟨e, rfl, by simp [replaceReviewerRun, hrep]⟩
  · have hshape := replaceReviewer_ok_shape st prId oldId newId st' hrep
    refine Or.inr ⟨st', rfl, by simp [replaceReviewerRun, hrep], ?_, ?_, ?_⟩
    · rw [hshape]
      exact List.mem_append.mpr (Or.inr (List.mem_singleton.mpr rfl))
    · rw [hshape]
      intro hmem
      rcases List.mem_append.mp hmem with hm | hm
      · have hdec := (List.mem_filter.mp hm).2
        simp only [decide_eq_true_eq] at hdec
        exact absurd rfl hdec
      · exact congrArg Prod.snd (List.mem_singleton.mp hm)
    · intro pair hold hnew
      rw [hshape]
      constructor
      · intro hmem
        rcases List.mem_append.mp hmem with hm | hm
        · exact (List.mem_filter.mp hm).1
        · exact absurd (List.mem_singleton.mp hm) hnew
      · intro hmem
        exact List.mem_append.mpr (Or.inl (List.mem_filter.mpr ⟨hmem, decide_eq_true hold⟩))

/-- Witness for C4 at a concrete state (PR 1 OPEN with reviewer 2, replaced
by 3). -/
theorem replaceReviewer_atomic_witness :
    (∃ e, replaceReviewer
        ⟨[], [], [⟨1, "t", 9, .Open, 0, none, 0⟩], [(1, 2)]⟩ 1 2 3 = .error e ∧
      replaceReviewerRun ⟨[], [], [⟨1, "t", 9, .Open, 0, none, 0⟩], [(1, 2)]⟩ 1 2 3 =
        ⟨[], [], [⟨1, "t", 9, .Open, 0, none, 0⟩], [(1, 2)]⟩) ∨
    (∃ st', replaceReviewer
        ⟨[], [], [⟨1, "t", 9, .Open, 0, none, 0⟩], [(1, 2)]⟩ 1 2 3 = .ok st' ∧
      replaceReviewerRun ⟨[], [], [⟨1, "t", 9, .Open, 0, none, 0⟩], [(1, 2)]⟩ 1 2 3 = st' ∧
      (1, 3) ∈ st'.prReviewers ∧
      ((1, 2) ∈ st'.prReviewers → 2 = 3) ∧
      (∀ pair, pair ≠ (1, 2) → pair ≠ (1, 3) →
        (pair ∈ st'.prReviewers ↔
          pair ∈ (⟨[], [], [⟨1, "t", 9, .Open, 0, none, 0⟩], [(1, 2)]⟩ : State).prReviewers))) :=
  replaceReviewer_atomic ⟨[], [], [⟨1, "t", 9, .Open, 0, none, 0⟩], [(1, 2)]⟩ 1 2 3

/-- Successful prMerge calls come from a row matching the conditional
UPDATE, and commit exactly the conditional update. -/
theorem prMerge_cases (st : State) (id now : Nat) (pr : PullRequest) (st' : State)
    (h : prMerge st id now = .ok (pr, st')) :
    ∃ p, st.prs.find? (mergeCond id) = some p ∧
      pr = assemble st' (mergeRow now p) ∧
      st' = { st with prs := st.prs.map (fun q => if mergeCond id q then mergeRow now q else q) } := by
  unfold prMerge at h
  split at h
  · exact absurd h (by simp)
  · rename_i p hp
    injection h with h
    rw [Prod.mk.injEq] at h
    refine ⟨p, hp, ?_, h.2.symm⟩
    rw [← h.1, h.2]

/-- Successful prClose calls come from an OPEN row matching the conditional
UPDATE, and commit exactly the conditional update. -/
theorem prClose_cases (st : State) (id : Nat) (pr : PullRequest) (st' : State)
    (h : prClose st id = .ok (pr, st')) :
    ∃ p, st.prs.find? (closeCond id) = some p ∧
      pr = assemble st' (closeRow p) ∧
      st' = { st with prs := st.prs.map (fun q => if closeCond id q then closeRow q else q) } := by
  unfold prClose at h
  split at h
  · exact absurd h (by simp)
  · rename_i p hp
    injection h with h
    rw [Prod.mk.injEq] at h
    refine ⟨p, hp, ?_, h.2.symm⟩
    rw [← h.1, h.2]

/-- Equation form of a successful prMerge, given the matching row. -/
theorem prMerge_ok_of_find (st : State) (id now : Nat) (p : PRRow)
    (h : st.prs.find? (mergeCond id) = some p) :
    prMerge st id now = .ok
      (assemble { st with prs := st.prs.map (fun q => if mergeCond id q then mergeRow now q else q) } (mergeRow now p),
       { st with prs := st.prs.map (fun q => if mergeCond id q then mergeRow now q else q) }) := by
  unfold prMerge
  rw [h]

/-- One OPEN pull request by user 1, for exercising the merge timestamps. -/
def stDrift : State :=
  ⟨[], [⟨1, "a", "A", true, none, 0, 0⟩], [⟨1, "t", 1, .Open, 0, none, 0⟩], []⟩

/-- C1 counterexample: merging PR 1 at time 10 and re-merging at time 20
succeeds both times with status MERGED, but the second call returns
mergedAt 20, not the original 10 — the repository re-applies
merged_at = now() on an already-MERGED row, so the second call does not
return identical timestamps. -/
theorem mergePullRequest_mergedAt_drifts :
    ((prMerge stDrift 1 10).toOption.map (fun r => (r.1.status, r.1.mergedAt)) =
      some (.Merged, some 10)) ∧
    (((prMerge stDrift 1 10).toOption.bind (fun r => (prMerge r.2 1 20).toOption)).map
      (fun r => (r.1.status, r.1.mergedAt)) = some (.Merged, some 20)) ∧
    (some (20 : Nat) ≠ some (10 : Nat)) :=
  ⟨rfl, rfl, by decide⟩

/-- C1 amended: MergePullRequest is status-idempotent: a second merge of an
already-MERGED PR succeeds, returns MERGED again and preserves id, title,
author and creation time, but sets mergedAt to the second call's current
time instead of leaving it unchanged. -/
theorem mergePullRequest_idempotent_amended
    (st : State) (id t1 t2 : Nat) (pr1 : PullRequest) (st1 : State)
    (h : prMerge st id t1 = .ok (pr1, st1)) :
    pr1.status = .Merged ∧ pr1.mergedAt = some t1 ∧
    ∃ pr2 st2, prMerge st1 id t2 = .ok (pr2, st2) ∧
      pr2.status = .Merged ∧ pr2.mergedAt = some t2 ∧
      pr2.id = pr1.id ∧ pr2.title = pr1.title ∧ pr2.authorId = pr1.authorId ∧
      pr2.createdAt = pr1.createdAt := by
  obtain ⟨p, hp, hpr, hst⟩ := prMerge_cases st id t1 pr1 st1 h
  subst hpr
  subst hst
  have hpres : ∀ q : PRRow, mergeCond id q = true → mergeCond id (mergeRow t1 q) = true := by
    intro q hq
    simp only [mergeCond, mergeRow, decide_eq_true_eq] at hq ⊢
    exact ⟨hq.1, Or.inr trivial⟩
  have hfind := find?_map_update hpres st.prs p hp
  exact ⟨rfl, rfl, _, _,
    prMerge_ok_of_find
      { st with prs := st.prs.map (fun q => if mergeCond id q then mergeRow t1 q else q) }
      id t2 (mergeRow t1 p) hfind,
    rfl, rfl, rfl, rfl, rfl, rfl⟩

/-- Witness for the amended C1 at the concrete one-PR state. -/
theorem mergePullRequest_idempotent_amended_witness :
    (⟨1, "t", 1, .Merged, 0, some 10, 0, []⟩ : PullRequest).status = .Merged ∧
    (⟨1, "t", 1, .Merged, 0, some 10, 0, []⟩ : PullRequest).mergedAt = some 10 ∧
    ∃ pr2 st2,
      prMerge ⟨[], [⟨1, "a", "A", true, none, 0, 0⟩], [⟨1, "t", 1, .Merged, 0, some 10, 0⟩], []⟩
        1 20 = .ok (pr2, st2) ∧
      pr2.status = .Merged ∧ pr2.mergedAt = some 20 ∧
      pr2.id = 1 ∧ pr2.title = "t" ∧ pr2.authorId = 1 ∧ pr2.createdAt = 0 :=
  mergePullRequest_idempotent_amended stDrift 1 10 20
    ⟨1, "t", 1, .Merged, 0, some 10, 0, []⟩
    ⟨[], [⟨1, "a", "A", true, none, 0, 0⟩], [⟨1, "t", 1, .Merged, 0, some 10, 0⟩], []⟩ rfl

/-- Equation form of a successful prClose, given the matching row. -/
theorem prClose_ok_of_find (st : State) (id : Nat) (p : PRRow)
    (h : st.prs.find? (closeCond id) = some p) :
    prClose st id = .ok
      (assemble { st with prs := st.prs.map (fun q => if closeCond id q then closeRow q else q) } (closeRow p),
       { st with prs := st.prs.map (fun q => if closeCond id q then closeRow q else q) }) := by
  unfold prClose
  rw [h]

/-- C3: the PR status machine is one-directional. Merge succeeds exactly on
a row that is OPEN or MERGED and yields MERGED; close succeeds exactly on an
OPEN row, yields CLOSED, and a second close of the same PR fails; close
fails when every matching row is MERGED or CLOSED; merging a CLOSED PR fails
with the not-found shaped error; CLOSED rows are preserved untouched by both
operations; and every row of the committed state is either an untouched old
row or the targeted OPEN/MERGED (resp. OPEN) row moved to MERGED (resp.
CLOSED). -/
theorem pr_status_machine (st : State) (idA idB idC t1 : Nat) :
    ((∃ r, prMerge st idA t1 = .ok r) ↔
      ∃ p, p ∈ st.prs ∧ p.id = idA ∧ (p.status = .Open ∨ p.status = .Merged)) ∧
    (∀ pr st', prMerge st idA t1 = .ok (pr, st') → pr.status = .Merged) ∧
    ((∃ r, prClose st idA = .ok r) ↔
      ∃ p, p ∈ st.prs ∧ p.id = idA ∧ p.status = .Open) ∧
    (∀ pr st', prClose st idA = .ok (pr, st') →
      pr.status = .Closed ∧ prClose st' idA = .error "PR not found or already closed/merged") ∧
    ((∀ p, p ∈ st.prs → p.id = idB → (p.status = .Merged ∨ p.status = .Closed)) →
      prClose st idB = .error "PR not found or already closed/merged") ∧
    ((∀ p, p ∈ st.prs → p.id = idC → p.status = .Closed) →
      prMerge st idC t1 = .error "PR not found") ∧
    (∀ pr st', prMerge st idA t1 = .ok (pr, st') →
      ∀ q, q ∈ st.prs → q.status = .Closed → q ∈ st'.prs) ∧
    (∀ pr st', prClose st idA = .ok (pr, st') →
      ∀ q, q ∈ st.prs → q.status = .Closed → q ∈ st'.prs) ∧
    (∀ pr st', prMerge st idA t1 = .ok (pr, st') →
      ∀ r, r ∈ st'.prs → r ∈ st.prs ∨
        ∃ q, q ∈ st.prs ∧ q.id = idA ∧ (q.status = .Open ∨ q.status = .Merged) ∧
          r = mergeRow t1 q) ∧
    (∀ pr st', prClose st idA = .ok (pr, st') →
      ∀ r, r ∈ st'.prs → r ∈ st.prs ∨
        ∃ q, q ∈ st.prs ∧ q.id = idA ∧ q.status = .Open ∧ r = closeRow q) := by
  refine ⟨?_, ?_, ?_, ?_, ?_, ?_, ?_, ?_, ?_, ?_⟩
  · constructor
    · rintro ⟨⟨pr, st'⟩, hr⟩
      obtain ⟨p, hp, _, _⟩ := prMerge_cases st idA t1 pr st' hr
      have hcond := List.find?_some hp
      simp only [mergeCond, decide_eq_true_eq] at hcond
      exact ⟨p, List.mem_of_find?_eq_some hp, hcond⟩
    · rintro ⟨p, hmem, hid, hstat⟩
      have hsome : (st.prs.find? (mergeCond idA)).isSome := by
        rw [List.find?_isSome]
        exact ⟨p, hmem, by simp [mergeCond, hid, hstat]⟩
      rcases hfind : st.prs.find? (mergeCond idA) with _ | q
      · rw [hfind] at hsome
        simp at hsome
      · exact ⟨_, prMerge_ok_of_find st idA t1 q hfind⟩
  · intro pr st' h
    obtain ⟨p, _, hpr, _⟩ := prMerge_cases st idA t1 pr st' h
    rw [hpr]
    rfl
  · constructor
    · rintro ⟨⟨pr, st'⟩, hr⟩
      obtain ⟨p, hp, _, _⟩ := prClose_cases st idA pr st' hr
      have hcond := List.find?_some hp
      simp only [closeCond, decide_eq_true_eq] at hcond
      exact ⟨p, List.mem_of_find?_eq_some hp, hcond⟩
    · rintro ⟨p, hmem, hid, hstat⟩
      have hsome : (st.prs.find? (closeCond idA)).isSome := by
        rw [List.find?_isSome]
        exact ⟨p, hmem, by simp [closeCond, hid, hstat]⟩
      rcases hfind : st.prs.find? (closeCond idA) with _ | q
      · rw [hfind] at hsome
        simp at hsome
      · exact ⟨_, prClose_ok_of_find st idA q hfind⟩
  · intro pr st' h
    obtain ⟨p, hp, hpr, hst⟩ := prClose_cases st idA pr st' h
    have hkill : ∀ q : PRRow, closeCond idA (closeRow q) = false := by
      intro q
      simp [closeCond, closeRow]
    refine ⟨by rw [hpr]; rfl, ?_⟩
    have hnone := find?_map_update_none hkill st.prs
    rw [hst]
    unfold prClose
    rw [show (({ st with prs := st.prs.map (fun q => if closeCond idA q then closeRow q else q) } : State).prs.find? (closeCond idA)) = none from hnone]
  · intro hall
    have hnone : st.prs.find? (closeCond idB) = none := by
      rw [List.find?_eq_none]
      intro x hx
      simp only [closeCond, decide_eq_true_eq, not_and]
      intro hid hstat
      rcases hall x hx hid with hms | hcs
      · rw [hstat] at hms
        exact absurd hms (by decide)
      · rw [hstat] at hcs
        exact absurd hcs (by decide)
    unfold prClose
    rw [hnone]
  · intro hall
    have hnone : st.prs.find? (mergeCond idC) = none := by
      rw [List.find?_eq_none]
      intro x hx
      simp only [mergeCond, decide_eq_true_eq, not_and]
      intro hid
      have := hall x hx hid
      rw [this]
      simp
    unfold prMerge
    rw [hnone]
  · intro pr st' h q hq hclosed
    obtain ⟨p, _, _, hst⟩ := prMerge_cases st idA t1 pr st' h
    rw [hst]
    have hq2 : (if mergeCond idA q then mergeRow t1 q else q) ∈
        st.prs.map (fun x => if mergeCond idA x then mergeRow t1 x else x) :=
      List.mem_map_of_mem _ hq
    rwa [if_neg (by simp [mergeCond, hclosed])] at hq2
  · intro pr st' h q hq hclosed
    obtain ⟨p, _, _, hst⟩ := prClose_cases st idA pr st' h
    rw [hst]
    have hq2 : (if closeCond idA q then closeRow q else q) ∈
        st.prs.map (fun x => if closeCond idA x then closeRow x else x) :=
      List.mem_map_of_mem _ hq
    rwa [if_neg (by simp [closeCond, hclosed])] at hq2
  · intro pr st' h r hr
    obtain ⟨p, _, _, hst⟩ := prMerge_cases st idA t1 pr st' h
    rw [hst] at hr
    obtain ⟨q, hq, hfq⟩ := List.mem_map.mp hr
    by_cases hc : mergeCond idA q = true
    · rw [if_pos hc] at hfq
      have hcond := hc
      simp only [mergeCond, decide_eq_true_eq] at hcond
      exact Or.inr ⟨q, hq, hcond.1, hcond.2, hfq.symm⟩
    · rw [if_neg hc] at hfq
      rw [← hfq]
      exact Or.inl hq
  · intro pr st' h r hr
    obtain ⟨p, _, _, hst⟩ := prClose_cases st idA pr st' h
    rw [hst] at hr
    obtain ⟨q, hq, hfq⟩ := List.mem_map.mp hr
    by_cases hc : closeCond idA q = true
    · rw [if_pos hc] at hfq
      have hcond := hc
      simp only [closeCond, decide_eq_true_eq] at hcond
      exact Or.inr ⟨q, hq, hcond.1, hcond.2, hfq.symm⟩
    · rw [if_neg hc] at hfq
      rw [← hfq]
      exact Or.inl hq

/-- Three PRs, one per status, for exercising the status machine. -/
def stGate : State :=
  ⟨[], [],
   [⟨1, "t1", 1, .Open, 0, none, 0⟩, ⟨2, "t2", 1, .Merged, 0, some 5, 0⟩,
    ⟨3, "t3", 1, .Closed, 0, none, 0⟩], []⟩

/-- Witness for C3 at a state with an OPEN, a MERGED and a CLOSED PR. -/
theorem pr_status_machine_witness :
    (∃ r, prMerge stGate 1 10 = .ok r) ∧
    ((⟨1, "t1", 1, .Closed, 0, none, 0, []⟩ : PullRequest).status = .Closed ∧
      prClose ⟨[], [],
        [⟨1, "t1", 1, .Closed, 0, none, 0⟩, ⟨2, "t2", 1, .Merged, 0, some 5, 0⟩,
         ⟨3, "t3", 1, .Closed, 0, none, 0⟩], []⟩ 1 =
        .error "PR not found or already closed/merged") ∧
    prClose stGate 2 = .error "PR not found or already closed/merged" ∧
    prMerge stGate 3 10 = .error "PR not found" := by
  obtain ⟨h1, _, _, h4, h5, h6, _, _, _, _⟩ := pr_status_machine stGate 1 2 3 10
  refine ⟨h1.mpr ⟨⟨1, "t1", 1, .Open, 0, none, 0⟩, by decide, rfl, Or.inl rfl⟩, ?_,
    h5 (by decide), h6 (by decide)⟩
  exact h4 ⟨1, "t1", 1, .Closed, 0, none, 0, []⟩
    ⟨[], [],
     [⟨1, "t1", 1, .Closed, 0, none, 0⟩, ⟨2, "t2", 1, .Merged, 0, some 5, 0⟩,
      ⟨3, "t3", 1, .Closed, 0, none, 0⟩], []⟩ rfl

/-- A MERGED PR authored by user 1 (PR 1) and an OPEN PR authored by user 1
(PR 2), for exercising the author check of AddReviewer. -/
def stAuthor : State :=
  ⟨[], [⟨1, "a", "A", true, none, 0, 0⟩],
   [⟨1, "t1", 1, .Merged, 0, some 5, 0⟩, ⟨2, "t2", 1, .Open, 0, none, 0⟩], []⟩

/-- C8 counterexample: calling AddReviewer with reviewerId equal to the
author id on a MERGED PR fails, but with the merged-or-closed InvalidState
error, not the AuthorCannotReview error — the status check runs first, so
the claimed error kind is wrong for MERGED (and CLOSED) PRs. -/
theorem addReviewer_author_merged_wrong_error :
    addReviewer stAuthor 1 1 = .error "cannot add reviewers to merged or closed PR" ∧
    "cannot add reviewers to merged or closed PR" ≠ "author cannot be a reviewer" :=
  ⟨rfl, by decide⟩

/-- C8 amended: AddReviewer always fails when reviewerId equals the PR's
author id, but the error kind depends on the status: the InvalidState error
on a MERGED or CLOSED PR (the status check fires first), and the
AuthorCannotReview error on an OPEN PR whose reviewer set does not already
contain the author. -/
theorem addReviewer_author_always_fails
    (st : State) (prId : Nat) (row : PRRow)
    (hrow : findPR st prId = some row) :
    ((row.status = .Merged ∨ row.status = .Closed) →
      addReviewer st prId row.authorId = .error "cannot add reviewers to merged or closed PR") ∧
    (row.status = .Open → (∀ u ∈ getReviewers st prId, u.id ≠ row.authorId) →
      addReviewer st prId row.authorId = .error "author cannot be a reviewer") ∧
    (∃ e, addReviewer st prId row.authorId = .error e) := by
  have hid : row.id = prId := by
    have := List.find?_some hrow
    simpa using this
  have hget : prGetByID st prId = .ok (assemble st row) := by
    unfold prGetByID
    rw [hrow]
  have hbad : ∀ hcond : (assemble st row).status = .Merged ∨ (assemble st row).status = .Closed,
      addReviewer st prId row.authorId = .error "cannot add reviewers to merged or closed PR" := by
    intro hcond
    unfold addReviewer
    rw [hget]
    simp only [if_pos hcond]
  have hopen2 : row.status = .Open → (∀ u ∈ getReviewers st prId, u.id ≠ row.authorId) →
      addReviewer st prId row.authorId = .error "author cannot be a reviewer" := by
    intro hopen hnot
    unfold addReviewer
    rw [hget]
    have hc1 : ¬((assemble st row).status = .Merged ∨ (assemble st row).status = .Closed) := by
      show ¬(row.status = .Merged ∨ row.status = .Closed)
      rw [hopen]
      rintro (h | h) <;> exact absurd h (by decide)
    have hc2 : ¬((assemble st row).reviewers.any (fun r => decide (r.id = row.authorId)) = true) := by
      show ¬((getReviewers st row.id).any (fun r => decide (r.id = row.authorId)) = true)
      rw [hid, List.any_eq_true]
      rintro ⟨u, hu, hdec⟩
      exact absurd (of_decide_eq_true hdec) (hnot u hu)
    simp only [if_neg hc1, if_neg hc2,
      if_pos (show (assemble st row).authorId = row.authorId from rfl)]
  refine ⟨hbad, hopen2, ?_⟩
  rcases hstat : row.status with _ | _ | _
  · by_cases hin : (getReviewers st prId).any (fun r => decide (r.id = row.authorId)) = true
    · refine ⟨"reviewer already assigned to this PR", ?_⟩
      unfold addReviewer
      rw [hget]
      have hc1 : ¬((assemble st row).status = .Merged ∨ (assemble st row).status = .Closed) := by
        show ¬(row.status = .Merged ∨ row.status = .Closed)
        rw [hstat]
        rintro (h | h) <;> exact absurd h (by decide)
      have hc2 : (assemble st row).reviewers.any (fun r => decide (r.id = row.authorId)) = true := by
        show (getReviewers st row.id).any (fun r => decide (r.id = row.authorId)) = true
        rwa [hid]
      simp only [if_neg hc1, if_pos hc2]
    · refine ⟨"author cannot be a reviewer", hopen2 hstat ?_⟩
      intro u hu
      by_contra heq
      exact hin (List.any_eq_true.mpr ⟨u, hu, decide_eq_true heq⟩)
  · exact ⟨_, hbad (Or.inl hstat)⟩
  · exact ⟨_, hbad (Or.inr hstat)⟩

/-- Witness for the amended C8: the MERGED PR 1 and the OPEN PR 2 of the
author-check state. -/
theorem addReviewer_author_always_fails_witness :
    addReviewer stAuthor 1 1 = .error "cannot add reviewers to merged or closed PR" ∧
    addReviewer stAuthor 2 1 = .error "author cannot be a reviewer" := by
  have hm := addReviewer_author_always_fails stAuthor 1 ⟨1, "t1", 1, .Merged, 0, some 5, 0⟩ rfl
  have ho := addReviewer_author_always_fails stAuthor 2 ⟨2, "t2", 1, .Open, 0, none, 0⟩ rfl
  exact ⟨hm.1 (Or.inl rfl), ho.2.1 rfl (by decide)⟩

/-- C7: the four failure modes of ReassignReviewer, each over its own
scenario: a MERGED PR fails with the InvalidState error; an oldReviewerId
that is not a current reviewer fails with the not-found error; an old
reviewer without a team fails with the no-team error; and an empty
replacement pool (active teammates of the old reviewer's team, excluding
the author and all current reviewers) fails with the no-available-reviewer
error, whatever order the database returns the candidates in. -/
theorem reassignReviewer_error_cases
    (stA : State) (prIdA oldA : Nat) (candA : List User) (idxA : Nat) (rowA : PRRow)
    (stB : State) (prIdB oldB : Nat) (candB : List User) (idxB : Nat) (rowB : PRRow)
    (stC : State) (prIdC oldC : Nat) (candC : List User) (idxC : Nat) (rowC : PRRow)
    (oldRevC : User)
    (stD : State) (prIdD oldD : Nat) (candD : List User) (idxD : Nat) (rowD : PRRow)
    (oldRevD : User) (tidD : Nat) :
    (findPR stA prIdA = some rowA → rowA.status = .Merged →
      reassignReviewer stA prIdA oldA candA idxA =
        .error "cannot change reviewers of merged PR") ∧
    (findPR stB prIdB = some rowB → rowB.status ≠ .Merged →
      (∀ u ∈ getReviewers stB prIdB, u.id ≠ oldB) →
      reassignReviewer stB prIdB oldB candB idxB = .error "reviewer not found in PR") ∧
    (findPR stC prIdC = some rowC → rowC.status ≠ .Merged →
      (getReviewers stC prIdC).find? (fun u => decide (u.id = oldC)) = some oldRevC →
      oldRevC.teamId = none →
      reassignReviewer stC prIdC oldC candC idxC = .error "reviewer is not in a team") ∧
    (findPR stD prIdD = some rowD → rowD.status ≠ .Merged →
      (getReviewers stD prIdD).find? (fun u => decide (u.id = oldD)) = some oldRevD →
      oldRevD.teamId = some tidD →
      candD.Perm (getActiveUsersFromTeam stD tidD rowD.authorId) →
      (getActiveUsersFromTeam stD tidD rowD.authorId).filter
        (fun c => !((getReviewerIDs (getReviewers stD prIdD)).contains c.id)) = [] →
      reassignReviewer stD prIdD oldD candD idxD =
        .error "failed to select new reviewer: no available reviewers in team") := by
  refine ⟨?_, ?_, ?_, ?_⟩
  · intro hrow hmerged
    have hget : prGetByID stA prIdA = .ok (assemble stA rowA) := by
      unfold prGetByID
      rw [hrow]
    unfold reassignReviewer
    rw [hget]
    simp only [if_pos (show (assemble stA rowA).status = .Merged from hmerged)]
  · intro hrow hnm hnot
    have hid : rowB.id = prIdB := by
      have := List.find?_some hrow
      simpa using this
    have hget : prGetByID stB prIdB = .ok (assemble stB rowB) := by
      unfold prGetByID
      rw [hrow]
    have hfn : (assemble stB rowB).reviewers.find? (fun u => decide (u.id = oldB)) = none := by
      show (getReviewers stB rowB.id).find? (fun u => decide (u.id = oldB)) = none
      rw [hid, List.find?_eq_none]
      intro u hu
      simp only [decide_eq_true_eq]
      exact hnot u hu
    unfold reassignReviewer
    rw [hget]
    simp only [if_neg (show ¬((assemble stB rowB).status = .Merged) from hnm), hfn]
  · intro hrow hnm hfind hnoteam
    have hid : rowC.id = prIdC := by
      have := List.find?_some hrow
      simpa using this
    have hget : prGetByID stC prIdC = .ok (assemble stC rowC) := by
      unfold prGetByID
      rw [hrow]
    have hfn : (assemble stC rowC).reviewers.find? (fun u => decide (u.id = oldC)) =
        some oldRevC := by
      show (getReviewers stC rowC.id).find? (fun u => decide (u.id = oldC)) = some oldRevC
      rw [hid]
      exact hfind
    unfold reassignReviewer
    rw [hget]
    simp only [if_neg (show ¬((assemble stC rowC).status = .Merged) from hnm), hfn, hnoteam]
  · intro hrow hnm hfind hteam hperm hpool
    have hid : rowD.id = prIdD := by
      have := List.find?_some hrow
      simpa using this
    have hget : prGetByID stD prIdD = .ok (assemble stD rowD) := by
      unfold prGetByID
      rw [hrow]
    have hfn : (assemble stD rowD).reviewers.find? (fun u => decide (u.id = oldD)) =
        some oldRevD := by
      show (getReviewers stD rowD.id).find? (fun u => decide (u.id = oldD)) = some oldRevD
      rw [hid]
      exact hfind
    have hlen : (candD.filter
        (fun c => !((getReviewerIDs (getReviewers stD prIdD)).contains c.id))).length = 0 := by
      have hpf := hperm.filter
        (fun c => !((getReviewerIDs (getReviewers stD prIdD)).contains c.id))
      rw [hpool] at hpf
      exact hpf.length_eq
    have hsel : selectRandomReviewer candD (getReviewerIDs (assemble stD rowD).reviewers)
        idxD = .error "no available reviewers in team" := by
      show selectRandomReviewer candD (getReviewerIDs (getReviewers stD rowD.id)) idxD =
        .error "no available reviewers in team"
      rw [hid]
      simp only [selectRandomReviewer]
      rw [dif_pos hlen]
    unfold reassignReviewer
    rw [hget]
    simp only [if_neg (show ¬((assemble stD rowD).status = .Merged) from hnm), hfn, hteam, hsel]
    rfl

/-- State for the reassignment failure modes: PR 10 MERGED; PR 20 OPEN with
no reviewers; PR 30 OPEN reviewed by the team-less user 5; PR 40 OPEN
reviewed by user 6, the only active member of team 2 besides the author. -/
def stReassign : State :=
  ⟨[⟨2, "qa", 0, 0⟩],
   [⟨1, "a", "A", true, some 2, 0, 0⟩, ⟨5, "e", "E", true, none, 0, 0⟩,
    ⟨6, "f", "F", true, some 2, 0, 0⟩],
   [⟨10, "t10", 1, .Merged, 0, some 5, 0⟩, ⟨20, "t20", 1, .Open, 0, none, 0⟩,
    ⟨30, "t30", 1, .Open, 0, none, 0⟩, ⟨40, "t40", 1, .Open, 0, none, 0⟩],
   [(30, 5), (40, 6)]⟩

/-- Witness for C7: all four failure modes at the concrete state. -/
theorem reassignReviewer_error_cases_witness :
    reassignReviewer stReassign 10 1 [] 0 = .error "cannot change reviewers of merged PR" ∧
    reassignReviewer stReassign 20 99 [] 0 = .error "reviewer not found in PR" ∧
    reassignReviewer stReassign 30 5 [] 0 = .error "reviewer is not in a team" ∧
    reassignReviewer stReassign 40 6 [⟨6, "f", "F", true, some 2, 0, 0⟩] 0 =
      .error "failed to select new reviewer: no available reviewers in team" := by
  obtain ⟨hA, hB, hC, hD⟩ := reassignReviewer_error_cases
    stReassign 10 1 [] 0 ⟨10, "t10", 1, .Merged, 0, some 5, 0⟩
    stReassign 20 99 [] 0 ⟨20, "t20", 1, .Open, 0, none, 0⟩
    stReassign 30 5 [] 0 ⟨30, "t30", 1, .Open, 0, none, 0⟩ ⟨5, "e", "E", true, none, 0, 0⟩
    stReassign 40 6 [⟨6, "f", "F", true, some 2, 0, 0⟩] 0 ⟨40, "t40", 1, .Open, 0, none, 0⟩
    ⟨6, "f", "F", true, some 2, 0, 0⟩ 2
  exact ⟨hA rfl rfl, hB rfl (by decide) (by decide), hC rfl (by decide) rfl rfl,
    hD rfl (by decide) rfl rfl (by decide) rfl⟩

end PRRev
